import Mathlib

/-!
# Verification of the `benchmark.c` metrics-aggregation harness

A shallow embedding of `src/scripts/benchmark.c` (the wasm-ml-benchmark
repository): the metric-block parser, the running-average accumulator,
the CSV sink and the iteration driver, together with theorems settling
the frozen claims about them.

Modelling conventions:
* C strings are Lean `String` / `List Char`; the `%9s` width limit of
  `sscanf` is modelled as a limit of 9 characters (in C it is 9 bytes;
  the difference is immaterial for every string compared against, since
  the only non-ASCII literal, the mojibake micro-second unit, fits in
  either budget).
* C `float` values are modelled as exact rationals (`ℚ`); the spec
  allows floating-point tolerance, and every concrete value appearing
  in the claims is exactly representable, so exact arithmetic agrees
  with IEEE evaluation at those points.
* C `int` / `long` are modelled as `ℤ` (no benchmark run approaches
  the overflow range); C integer division truncates toward zero and is
  modelled by `Int.tdiv`.
* `sscanf`'s `%f` conversion is modelled on plain decimal notation
  (optional sign, digits, optional fraction part); exponent, hex and
  inf/nan forms are never produced by the report format this harness
  consumes and are not modelled.
* The filesystem and process environment are an oracle: each iteration
  either fails (`system` returns non-zero), finds no scratch file, or
  yields the list of lines of the scratch file.  `mkdir`/`fopen` of the
  CSV files are modelled as succeeding, matching the environment every
  claim about the iteration loop presupposes.
-/

namespace Benchmark

/-- `listStartsWith pat l` : `pat` is a prefix of `l` (character-exact). -/
def listStartsWith : List Char → List Char → Bool
  | [], _ => true
  | _ :: _, [] => false
  | p :: ps, c :: cs => p == c && listStartsWith ps cs

/-- Models C `strstr(l, pat) != NULL`: `pat` occurs as a contiguous
substring of `l` (the empty pattern always occurs). -/
def hasSubstr : List Char → List Char → Bool
  | [], pat => listStartsWith pat []
  | c :: cs, pat => listStartsWith pat (c :: cs) || hasSubstr cs pat

/-- Models `p = strstr(l, pat); p += strlen(pat)`: the suffix of `l`
that follows the first occurrence of `pat`, when `pat` occurs. -/
def afterFirst : List Char → List Char → Option (List Char)
  | [], pat => if listStartsWith pat [] then some [] else none
  | c :: cs, pat =>
    if listStartsWith pat (c :: cs) then some ((c :: cs).drop pat.length)
    else afterFirst cs pat

/-- The whitespace class skipped by `sscanf` conversions (C `isspace`). -/
def isWs (c : Char) : Bool :=
  c == ' ' || c == '\t' || c == '\n' || c == '\r' || c == '\x0b' || c == '\x0c'

/-- Numeric value of a digit character. -/
def digitVal (c : Char) : ℕ := c.toNat - 48

/-- Value of a digit string, most significant digit first. -/
def digitsVal (ds : List Char) : ℕ := ds.foldl (fun a c => 10 * a + digitVal c) 0

/-- Models `sscanf`'s `%f` conversion on plain decimal notation: skip
whitespace, optional sign, integer digits, optional `.` and fraction
digits; at least one digit must be present.  Returns the value and the
unconsumed remainder of the input. -/
def scanFloat (l : List Char) : Option (ℚ × List Char) :=
  let l1 := l.dropWhile isWs
  let sign : ℚ := match l1 with
    | '-' :: _ => -1
    | _ => 1
  let l2 : List Char := match l1 with
    | '-' :: r => r
    | '+' :: r => r
    | _ => l1
  let ip := l2.takeWhile Char.isDigit
  let l3 := l2.dropWhile Char.isDigit
  match l3 with
  | '.' :: l4 =>
    let fp := l4.takeWhile Char.isDigit
    let l5 := l4.dropWhile Char.isDigit
    if ip.isEmpty && fp.isEmpty then none
    else some (sign * ((digitsVal ip : ℚ) + (digitsVal fp : ℚ) / 10 ^ fp.length), l5)
  | _ =>
    if ip.isEmpty then none else some (sign * (digitsVal ip : ℚ), l3)

/-- Models `sscanf`'s `%9s` conversion: skip whitespace, then read at
most 9 non-whitespace characters.  An empty result models the case
where the conversion fails and `unit` keeps its zero-initialised
(empty) contents. -/
def scanToken9 (l : List Char) : List Char :=
  ((l.dropWhile isWs).takeWhile (fun c => !isWs c)).take 9

/-- Drop one optional leading sign character. -/
def afterSign (l : List Char) : List Char :=
  match l with
  | '-' :: r => r
  | '+' :: r => r
  | _ => l

/-- Models C `atol` / `atoi`: skip whitespace, optional single sign,
then a maximal digit run (an empty run yields 0). -/
def atol (l : List Char) : ℤ :=
  let l1 := l.dropWhile isWs
  let mag : ℤ := (digitsVal ((afterSign l1).takeWhile Char.isDigit) : ℤ)
  match l1 with
  | '-' :: _ => -mag
  | _ => mag

/-- After whitespace and an optional sign, the next character is a
digit — the condition under which `atol` can return a non-zero value. -/
def hasLeadingDigit (l : List Char) : Bool :=
  match afterSign (l.dropWhile isWs) with
  | c :: _ => c.isDigit
  | [] => false

/-- The five metric-label patterns of `parse_metrics_block`. -/
def wallLabel : List Char := "Wall Clock Time:".toList

def userLabel : List Char := "User time:".toList

def systemLabel : List Char := "System time:".toList

def cpuLabel : List Char := "CPU Usage:".toList

def rssLabel : List Char := "Max RSS:".toList

/-- The block-terminator pattern: 39 `=` characters, as in the source's
`strstr(line, "=====...")` check. -/
def termPat : List Char := List.replicate 39 '='

/-- The mojibake micro-second unit literal of the source (bytes
`c3 82 c2 b5 73`, i.e. the two characters `Âµ` followed by `s`). -/
def microLabel : List Char := "Âµs".toList

/-- `parse_time_line` of the source: find the label, skip spaces, scan
a float and an optional unit token (`%f%9s`); `s`/`sec` scale to
milliseconds (×1000), the micro-second literals scale down (÷1000),
anything else (including no token) leaves the number unscaled.
Returns `none` exactly when the C function returns 0 without writing
`*val`. -/
def parse_time_line (line : List Char) (pre : List Char) : Option ℚ :=
  match afterFirst line pre with
  | none => none
  | some p0 =>
    let p := p0.dropWhile (· == ' ')
    match scanFloat p with
    | none => none
    | some (number, rest) =>
      let unit := scanToken9 rest
      if unit == "s".toList || unit == "sec".toList then some (number * 1000)
      else if unit == microLabel || unit == "microseconds".toList then some (number / 1000)
      else some number

/-- `parse_cpu_line` of the source: find the label, skip spaces, scan a
float with `sscanf("%f")` whose result is *not* checked — a failed scan
leaves the zero-initialised `number`, and the function still reports
success. -/
def parse_cpu_line (line : List Char) (pre : List Char) : Option ℚ :=
  match afterFirst line pre with
  | none => none
  | some p0 =>
    let p := p0.dropWhile (· == ' ')
    some (((scanFloat p).map Prod.fst).getD 0)

/-- `parse_rss` of the source: find `Max RSS:` and apply `atol` to the
rest of the line. -/
def parse_rss (line : List Char) : Option ℤ :=
  (afterFirst line rssLabel).map atol

/-- `calculate_new_average` of the source, verbatim: the count passed
by the caller is one less than the current sample's index. -/
def calculate_new_average (old_avg : ℚ) (currentCount : ℤ) (current_value : ℚ) : ℚ :=
  if currentCount = 0 then current_value
  else (currentCount * old_avg + current_value) / (currentCount + 1)

/-- The integer running-mean update applied to `max_rss` inside
`parse_metrics_block` (source line 178), with C's truncating division. -/
def rss_update (avg_rss : ℤ) (currentCount : ℤ) (r : ℤ) : ℤ :=
  Int.tdiv ((currentCount - 1) * avg_rss + r) currentCount

/-- The `Metrics` struct of the source: four float fields and the
`long max_rss` field. -/
structure Metrics where
  user_time : ℚ
  system_time : ℚ
  cpu_usage : ℚ
  wall_clock : ℚ
  max_rss : ℤ
deriving DecidableEq, Repr

/-- The all-zero `Metrics` value (`memset(out, 0, sizeof(Metrics))`,
and the `= {0}` initialisers of the eight accumulators in `main`). -/
def zeroMetrics : Metrics := ⟨0, 0, 0, 0, 0⟩

/-- Result of `parse_metrics_block`: the well-formedness flag
(`found == 5`), the parsed sample `out`, the updated accumulator, and
the lines remaining after the block (the stream position of `fp`). -/
structure BlockResult where
  ok : Bool
  out : Metrics
  avg : Metrics
  rest : List String
deriving DecidableEq, Repr

/-- The line-consuming loop of `parse_metrics_block`.  Each recognised
label line updates `out` and immediately merges the (possibly failed,
hence unchanged) parsed value into the accumulator; `found` counts
label lines with multiplicity; a terminator line breaks out.  Mirrors
source lines 149–185. -/
def parseBlockGo : List String → Metrics → Metrics → ℤ → ℕ → BlockResult
  | [], out, avg, _, found => ⟨found == 5, out, avg, []⟩
  | l :: ls, out, avg, cnt, found =>
    let cs := l.toList
    if hasSubstr cs wallLabel then
      let v := (parse_time_line cs wallLabel).getD out.wall_clock
      parseBlockGo ls { out with wall_clock := v }
        { avg with wall_clock := calculate_new_average avg.wall_clock (cnt - 1) v }
        cnt (found + 1)
    else if hasSubstr cs userLabel then
      let v := (parse_time_line cs userLabel).getD out.user_time
      parseBlockGo ls { out with user_time := v }
        { avg with user_time := calculate_new_average avg.user_time (cnt - 1) v }
        cnt (found + 1)
    else if hasSubstr cs systemLabel then
      let v := (parse_time_line cs systemLabel).getD out.system_time
      parseBlockGo ls { out with system_time := v }
        { avg with system_time := calculate_new_average avg.system_time (cnt - 1) v }
        cnt (found + 1)
    else if hasSubstr cs cpuLabel then
      let v := (parse_cpu_line cs cpuLabel).getD out.cpu_usage
      parseBlockGo ls { out with cpu_usage := v }
        { avg with cpu_usage := calculate_new_average avg.cpu_usage (cnt - 1) v }
        cnt (found + 1)
    else if hasSubstr cs rssLabel then
      let r := (parse_rss cs).getD out.max_rss
      parseBlockGo ls { out with max_rss := r }
        { avg with max_rss := rss_update avg.max_rss cnt r }
        cnt (found + 1)
    else if hasSubstr cs termPat then
      ⟨found == 5, out, avg, ls⟩
    else
      parseBlockGo ls out avg cnt found

/-- `parse_metrics_block` of the source: consume lines, zero-initialise
`out`, count found fields; the block is well-formed iff `found == 5`. -/
def parse_metrics_block (lines : List String) (avg : Metrics) (currentCount : ℤ) :
    BlockResult :=
  parseBlockGo lines zeroMetrics avg currentCount 0

/-- A line that `parse_metrics_block` treats as a metric-field line:
it contains one of the five label patterns. -/
def isFieldLine (cs : List Char) : Bool :=
  hasSubstr cs wallLabel || hasSubstr cs userLabel || hasSubstr cs systemLabel ||
    hasSubstr cs cpuLabel || hasSubstr cs rssLabel

/-- The number of metric-field lines (counted with multiplicity) that
`parse_metrics_block` consumes from `lines` before its terminator or
end of stream. -/
def recognizedCount : List String → ℕ
  | [] => 0
  | l :: ls =>
    if isFieldLine l.toList then recognizedCount ls + 1
    else if hasSubstr l.toList termPat then 0
    else recognizedCount ls

/-- The eight phases recognised by `main`'s scan of the scratch file. -/
inductive Phase where
  | loadmodel
  | readimg
  | redbox
  | readimgGreen
  | inference
  | postprocessing
  | greenbox
  | total
deriving DecidableEq, Repr

/-- The phase-header dispatch of `main` (source lines 400–439), in the
source's `else if` order. -/
def headerPhase (cs : List Char) : Option Phase :=
  if hasSubstr cs "loadmodel Metrics".toList then some .loadmodel
  else if hasSubstr cs "readimg Metrics".toList then some .readimg
  else if hasSubstr cs "RED BOX Phase Metrics".toList then some .redbox
  else if hasSubstr cs "Pre-processing Metrics".toList then some .readimgGreen
  else if hasSubstr cs "Inference Metrics".toList then some .inference
  else if hasSubstr cs "Post-processing Metrics".toList then some .postprocessing
  else if hasSubstr cs "GREEN BOX Phase Metrics".toList then some .greenbox
  else if hasSubstr cs "Total Metrics".toList then some .total
  else none

/-- One iteration's scan of the scratch-file lines (the inner `while
(fgets(...))` of `main`): on a phase header, run the block parser
against that phase's accumulator; a well-formed sample is emitted as a
CSV row for that phase, in stream order.  The first argument is
recursion fuel — the block parser only consumes lines, so fuel equal
to the number of lines (as `processLines` supplies) is never
exhausted, and the zero-fuel equation is unreachable. -/
def processLinesGo : ℕ → List String → (Phase → Metrics) → ℤ →
    (Phase → Metrics) × List (Phase × Metrics)
  | _, [], avgs, _ => (avgs, [])
  | 0, _ :: _, avgs, _ => (avgs, [])
  | fuel + 1, l :: ls, avgs, cnt =>
    match headerPhase l.toList with
    | none => processLinesGo fuel ls avgs cnt
    | some φ =>
      let b := parse_metrics_block ls (avgs φ) cnt
      let avgs2 : Phase → Metrics := fun ψ => if ψ = φ then b.avg else avgs ψ
      let res := processLinesGo fuel b.rest avgs2 cnt
      (res.1, (if b.ok then [(φ, b.out)] else []) ++ res.2)

/-- `processLinesGo` with sufficient fuel for its line list. -/
def processLines (lines : List String) (avgs : Phase → Metrics) (cnt : ℤ) :
    (Phase → Metrics) × List (Phase × Metrics) :=
  processLinesGo lines.length lines avgs cnt

/-- What one iteration of `main`'s loop observes from the environment:
the external command failed, the scratch file could not be reopened, or
the scratch file holds these lines. -/
inductive IterOutcome where
  | cmdFail
  | noFile
  | content (lines : List String)

/-- The iteration loop of `main` (source lines 372–441).  The global
`current_count` is incremented once per iteration — also for failed
ones — and is what every block parse of that iteration receives.
Returns the final accumulators, the CSV rows tagged with the iteration
number that produced them, and the stderr log lines. -/
def runIterations : List IterOutcome → ℕ → (Phase → Metrics) →
    (Phase → Metrics) × List (ℕ × Phase × Metrics) × List String
  | [], _, avgs => (avgs, [], [])
  | o :: os, cnt, avgs =>
    let cnt2 := cnt + 1
    match o with
    | .cmdFail =>
      let r := runIterations os cnt2 avgs
      (r.1, r.2.1, ("Command failed on iteration " ++ toString cnt2) :: r.2.2)
    | .noFile =>
      let r := runIterations os cnt2 avgs
      (r.1, r.2.1, r.2.2)
    | .content ls =>
      let p := processLines ls avgs (cnt2 : ℤ)
      let r := runIterations os cnt2 p.1
      (r.1, p.2.map (fun pm => (cnt2, pm.1, pm.2)) ++ r.2.1, r.2.2)

/-- `check_args` of the source: exactly three arguments, and
`atoi(argv[1])` must be positive; on failure the diagnostic goes to
standard error and `main` returns 1. -/
def check_args (argv : List String) : Except String ℤ :=
  if argv.length ≠ 3 then .error "Usage: <num_iterations> <enable_stack_trace>"
  else if atol (argv.getD 1 "").toList ≤ 0 then
    .error "Error: Number of iterations must be a positive integer"
  else .ok (atol (argv.getD 1 "").toList)

/-- The observable result of a `main` run: exit code, how many
directories were created and whether the CSV sinks were opened, how
many loop iterations were attempted, the stderr diagnostics, the final
accumulators and the tagged CSV rows. -/
structure MainResult where
  exitCode : ℕ
  mkdirCalls : ℕ
  csvOpened : Bool
  itersAttempted : ℕ
  stderrMsgs : List String
  avgs : Phase → Metrics
  rows : List (ℕ × Phase × Metrics)

/-- `main` of the source, over an environment oracle giving each
iteration's outcome.  A `check_args` failure returns 1 before any
directory is created, any CSV sink is opened or any iteration runs;
otherwise the directories are created, the sinks opened, the loop runs
`num_iterations` times and the program returns 0. -/
def benchMain (argv : List String) (oracle : ℕ → IterOutcome) : MainResult :=
  match check_args argv with
  | .error e =>
    { exitCode := 1, mkdirCalls := 0, csvOpened := false, itersAttempted := 0,
      stderrMsgs := [e], avgs := fun _ => zeroMetrics, rows := [] }
  | .ok n =>
    let outs := (List.range n.toNat).map fun k => oracle (k + 1)
    let r := runIterations outs 0 (fun _ => zeroMetrics)
    { exitCode := 0, mkdirCalls := 2, csvOpened := true, itersAttempted := n.toNat,
      stderrMsgs := r.2.2, avgs := r.1, rows := r.2.1 }

/-- Digit characters of a natural number, most significant first. -/
def natChars (n : ℕ) : List Char := Nat.toDigits 10 n

/-- Fixed-point rendering of a rational with `d` decimal places, as
C `printf("%.*f")` renders the corresponding float (exact at every
value these claims evaluate, so the float rounding step is identity). -/
def fmtFixed (q : ℚ) (d : ℕ) : String :=
  let scaled : ℤ := round (q * (10 : ℚ) ^ d)
  let sign := if scaled < 0 then "-" else ""
  let n := scaled.natAbs
  let ip := n / 10 ^ d
  let fp := n % 10 ^ d
  let fpChars := natChars fp
  sign ++ String.mk (natChars ip) ++ "." ++
    String.mk (List.replicate (d - fpChars.length) '0' ++ fpChars)

/-- `write_csv_header` of the source: the fixed header line. -/
def write_csv_header : String := "user_time,system_time,cpu_percent,wallclock_time,max_rss"

/-- `write_csv` of the source: the row format
`"%.3f,%.3f,%.2f%%,%.3f,%ld"` over user, system, cpu, wall clock and
max RSS. -/
def write_csv (m : Metrics) : String :=
  fmtFixed m.user_time 3 ++ "," ++ fmtFixed m.system_time 3 ++ "," ++
    fmtFixed m.cpu_usage 2 ++ "%," ++ fmtFixed m.wall_clock 3 ++ "," ++ toString m.max_rss

/-- The full content of one phase's CSV file at the end of a run: the
header written at start, then one `write_csv` row per well-formed
sample of that phase, in iteration/stream order (the file is the only
writer's append-mode sink). -/
def csvFile (res : MainResult) (φ : Phase) : List String :=
  write_csv_header :: (res.rows.filter (fun r => r.2.1 == φ)).map (fun r => write_csv r.2.2)

/-- The per-field running-average accumulation as `main` performs it
when a phase's k-th sample arrives in iteration number k: feed the
samples in order, passing the previous sample count (`current_count -
1` at the call sites of `calculate_new_average`). -/
def runAverage : ℚ → ℤ → List ℚ → ℚ
  | avg, _, [] => avg
  | avg, k, v :: vs => runAverage (calculate_new_average avg k v) (k + 1) vs

/-- The scratch file of the spec's single-iteration inference example. -/
def inferenceScratch : List String :=
  ["====Inference Metrics====",
   "Wall Clock Time: 12.500 ms",
   "User time: 10.000 ms",
   "System time: 2.000 ms",
   "CPU Usage: 96.00",
   "Max RSS: 40960",
   String.mk termPat]

/-- A scratch file whose inference block has wall clock 10 ms. -/
def wall10Scratch : List String :=
  ["====Inference Metrics====",
   "Wall Clock Time: 10.000 ms",
   "User time: 1.000 ms",
   "System time: 1.000 ms",
   "CPU Usage: 50.00",
   "Max RSS: 100",
   String.mk termPat]

/-- A scratch file whose inference block has wall clock 20 ms. -/
def wall20Scratch : List String :=
  ["====Inference Metrics====",
   "Wall Clock Time: 20.000 ms",
   "User time: 1.000 ms",
   "System time: 1.000 ms",
   "CPU Usage: 50.00",
   "Max RSS: 100",
   String.mk termPat]

/-- Environment for the first-iteration-fails scenario: the command
fails on iteration 1 and produces a wall-clock-10 inference block on
iteration 2. -/
def failThenWall10 : ℕ → IterOutcome :=
  fun i => if i = 2 then .content wall10Scratch else .cmdFail

/-- Environment feeding wall clock 10 ms then 20 ms over two
iterations. -/
def wall10Then20 : ℕ → IterOutcome :=
  fun i => if i = 1 then .content wall10Scratch else .content wall20Scratch

/-- A block with four of the five fields (no `Max RSS:` line). -/
def missingRssBlock : List String :=
  ["Wall Clock Time: 10.0 ms",
   "User time: 3.0 ms",
   "System time: 1.0 ms",
   "CPU Usage: 50.0",
   String.mk termPat]

/-- A block where the wall-clock label appears twice and the CPU label
never appears: five label lines, but only four distinct fields. -/
def duplicateWallBlock : List String :=
  ["Wall Clock Time: 10.0 ms",
   "Wall Clock Time: 10.0 ms",
   "User time: 3.0 ms",
   "System time: 1.0 ms",
   "Max RSS: 100",
   String.mk termPat]

/-- The max-RSS accumulation as `main` performs it when the phase's
k-th sample arrives in iteration k: the k-th merge calls the integer
update with `current_count = k`. -/
def runRssAverage : ℤ → ℤ → List ℤ → ℤ
  | a, _, [] => a
  | a, k, r :: rs => runRssAverage (rss_update a k r) (k + 1) rs

/-- Ten alternating RSS samples 1, 0, 1, 0, …, simple mean 1/2. -/
def rssAlt10 : List ℤ := [1, 0, 1, 0, 1, 0, 1, 0, 1, 0]

/-- Twenty alternating RSS samples 1, 0, 1, 0, …, simple mean 1/2. -/
def rssAlt20 : List ℤ :=
  [1, 0, 1, 0, 1, 0, 1, 0, 1, 0, 1, 0, 1, 0, 1, 0, 1, 0, 1, 0]

/-- A block whose five label lines all lack a parseable number. -/
def garbledBlock : List String :=
  ["Wall Clock Time: abc",
   "User time: [?]",
   "System time: ---",
   "CPU Usage: oops",
   "Max RSS: lots",
   String.mk termPat]

unseal Rat.mul Rat.inv Rat.add Rat.sub Rat.ofScientific in
/-- C5: a run of one iteration whose scratch file contains exactly one
"Inference Metrics" block with all five fields (wall clock 12.500 ms,
user 10.000 ms, system 2.000 ms, CPU 96.00, Max RSS 40960) and a
terminator yields `inference.csv` = header plus exactly the row
`10.000,2.000,96.00%,12.500,40960`, and the final inference average
equals those five values exactly. -/
theorem c5_single_inference_block_run :
    (benchMain ["./benchmark", "1", "0"] (fun _ => .content inferenceScratch)).exitCode = 0
  ∧ csvFile (benchMain ["./benchmark", "1", "0"] (fun _ => .content inferenceScratch))
      Phase.inference =
      ["user_time,system_time,cpu_percent,wallclock_time,max_rss",
       "10.000,2.000,96.00%,12.500,40960"]
  ∧ (benchMain ["./benchmark", "1", "0"] (fun _ => .content inferenceScratch)).avgs
      Phase.inference = ⟨10, 2, 96, 12.5, 40960⟩ := by
  refine ⟨rfl, ?_, ?_⟩ <;> decide

unseal Rat.mul Rat.inv Rat.add Rat.sub Rat.ofScientific in
/-- C1 (counterexample): with two iterations where the external command
fails on iteration 1 and iteration 2 contributes the phase's first and
only sample (wall clock 10 ms), the stored inference average is 5 ms,
not the arithmetic mean (10 ms) of the single merged sample — the
update divides by the global iteration counter, not the phase's sample
count. -/
theorem c1_phase_average_not_mean_counterexample :
    (benchMain ["./benchmark", "2", "0"] failThenWall10).rows.map
        (fun r => r.2.2.wall_clock) = [10]
  ∧ ((benchMain ["./benchmark", "2", "0"] failThenWall10).avgs Phase.inference).wall_clock = 5
  ∧ (5 : ℚ) ≠ 10 := by
  refine ⟨?_, ?_, ?_⟩ <;> decide

unseal Rat.mul Rat.inv Rat.add Rat.sub in
/-- C2 (counterexample): a parsed block missing the `Max RSS:` field is
not well-formed (no CSV row), yet its phase's running average is NOT
left unchanged: every field found before the terminator has already
been merged — here the wall-clock average moves from 0 to 10. -/
theorem c2_discarded_block_changes_average_counterexample :
    (parse_metrics_block missingRssBlock zeroMetrics 1).ok = false
  ∧ ((parse_metrics_block missingRssBlock zeroMetrics 1).avg.wall_clock = 10
      ∧ zeroMetrics.wall_clock = 0)
  ∧ (parse_metrics_block missingRssBlock zeroMetrics 1).avg ≠ zeroMetrics := by
  refine ⟨rfl, ⟨?_, rfl⟩, ?_⟩ <;> decide

/-- C3 (counterexample): a block in which the wall-clock label line
appears twice while the CPU label is entirely absent is classified
well-formed (`found == 5` counts label lines with multiplicity), so it
IS written to its phase's CSV — refuting the claimed
"all five distinct fields" characterisation. -/
theorem c3_duplicate_labels_wellformed_counterexample :
    (parse_metrics_block duplicateWallBlock zeroMetrics 1).ok = true
  ∧ (∀ l ∈ duplicateWallBlock, hasSubstr l.toList cpuLabel = false) := by
  refine ⟨rfl, ?_⟩; decide

unseal Rat.mul Rat.inv Rat.add Rat.sub in
/-- C9 (code evaluation at the failing input): a time line whose unit
token is `microseconds` is NOT divided by 1000 — the token is scanned
through `%9s` into `char unit[10]`, truncating it to `microseco`, so
the source's own `strcmp(unit, "microseconds")` can never match and the
value is stored unscaled.  The other unit rules behave as claimed: the
(mojibake) micro-second literal of the source divides by 1000, `s`
multiplies by 1000, and an unknown unit such as `ms` leaves the value
unscaled. -/
theorem c9_microseconds_unit_not_scaled :
    parse_time_line "Wall Clock Time: 5 microseconds".toList wallLabel = some 5
  ∧ scanToken9 " microseconds".toList = "microseco".toList
  ∧ parse_time_line ("Wall Clock Time: 5 " ++ String.mk microLabel).toList wallLabel
      = some (5 / 1000)
  ∧ parse_time_line "Wall Clock Time: 5 s".toList wallLabel = some 5000
  ∧ parse_time_line "Wall Clock Time: 5 ms".toList wallLabel = some 5 := by
  refine ⟨?_, rfl, ?_, ?_, ?_⟩ <;> decide

/-- C10: a line that carries one of the five labels but no parseable
number still counts toward the five required fields — the block is
classified well-formed — and the field is recorded and merged into the
running average as 0: `parse_time_line`'s failure is ignored (the
zero-initialised `out` field is used), `parse_cpu_line` reports success
with its zero-initialised number, and `atol` yields 0 on
non-numeric text. -/
theorem c10_unparseable_number_counts_as_zero (avg : Metrics) (cnt : ℤ) :
    (parse_metrics_block garbledBlock avg cnt).ok = true
  ∧ (parse_metrics_block garbledBlock avg cnt).out = ⟨0, 0, 0, 0, 0⟩
  ∧ (parse_metrics_block garbledBlock avg cnt).avg.wall_clock
      = calculate_new_average avg.wall_clock (cnt - 1) 0
  ∧ (parse_metrics_block garbledBlock avg cnt).avg.user_time
      = calculate_new_average avg.user_time (cnt - 1) 0
  ∧ (parse_metrics_block garbledBlock avg cnt).avg.system_time
      = calculate_new_average avg.system_time (cnt - 1) 0
  ∧ (parse_metrics_block garbledBlock avg cnt).avg.cpu_usage
      = calculate_new_average avg.cpu_usage (cnt - 1) 0
  ∧ (parse_metrics_block garbledBlock avg cnt).avg.max_rss
      = rss_update avg.max_rss cnt 0 := by
  exact ⟨rfl, rfl, rfl, rfl, rfl, rfl, rfl⟩

/-- The well-formedness flag of the block parser is exactly "the
running field-line tally reaches 5". -/
theorem parseBlockGo_ok_count (lines : List String) :
    ∀ out avg cnt found,
      (parseBlockGo lines out avg cnt found).ok
        = ((found + recognizedCount lines) == 5) := by
  induction lines with
  | nil => intro out avg cnt found; simp [parseBlockGo, recognizedCount]
  | cons l ls ih =>
    intro out avg cnt found
    simp only [parseBlockGo, recognizedCount, isFieldLine]
    by_cases h1 : hasSubstr l.data wallLabel = true
    · simp [h1, ih]
      omega
    · by_cases h2 : hasSubstr l.data userLabel = true
      · simp [h1, h2, ih]
        omega
      · by_cases h3 : hasSubstr l.data systemLabel = true
        · simp [h1, h2, h3, ih]
          omega
        · by_cases h4 : hasSubstr l.data cpuLabel = true
          · simp [h1, h2, h3, h4, ih]
            omega
          · by_cases h5 : hasSubstr l.data rssLabel = true
            · simp [h1, h2, h3, h4, h5, ih]
              omega
            · by_cases h6 : hasSubstr l.data termPat = true
              · simp [h1, h2, h3, h4, h5, h6]
              · simp [h1, h2, h3, h4, h5, h6, ih]

/-- C3 (amended theorem): a parsed block is classified well-formed —
and hence written to its phase's CSV — if and only if exactly five
label-carrying lines (counted WITH multiplicity, not five distinct
fields) were consumed before the terminator or end of stream.
Duplicated labels substitute for missing ones, and a sixth label line
makes the block ill-formed. -/
theorem c3_wellformed_iff_five_field_lines (lines : List String) (avg : Metrics) (cnt : ℤ) :
    (parse_metrics_block lines avg cnt).ok = (recognizedCount lines == 5) := by
  simpa using parseBlockGo_ok_count lines zeroMetrics avg cnt 0

/-- A block with no wall-clock label line leaves the wall-clock
average untouched. -/
theorem parseBlockGo_wall_untouched (lines : List String) :
    ∀ out avg cnt found,
      (∀ l ∈ lines, hasSubstr l.data wallLabel = false) →
      (parseBlockGo lines out avg cnt found).avg.wall_clock = avg.wall_clock := by
  induction lines with
  | nil => intro out avg cnt found _; rfl
  | cons l ls ih =>
    intro out avg cnt found h
    have hl : hasSubstr l.data wallLabel = false := h l (by simp)
    have ht : ∀ x ∈ ls, hasSubstr x.data wallLabel = false := fun x hx => h x (by simp [hx])
    simp only [parseBlockGo, String.toList]
    simp only [hl]
    repeat' split
    all_goals first
      | rfl
      | contradiction
      | exact ih _ _ _ _ ht

/-- A block with no user-time label line leaves the user-time average
untouched. -/
theorem parseBlockGo_user_untouched (lines : List String) :
    ∀ out avg cnt found,
      (∀ l ∈ lines, hasSubstr l.data userLabel = false) →
      (parseBlockGo lines out avg cnt found).avg.user_time = avg.user_time := by
  induction lines with
  | nil => intro out avg cnt found _; rfl
  | cons l ls ih =>
    intro out avg cnt found h
    have hl : hasSubstr l.data userLabel = false := h l (by simp)
    have ht : ∀ x ∈ ls, hasSubstr x.data userLabel = false := fun x hx => h x (by simp [hx])
    simp only [parseBlockGo, String.toList]
    simp only [hl]
    repeat' split
    all_goals first
      | rfl
      | contradiction
      | exact ih _ _ _ _ ht

/-- A block with no system-time label line leaves the system-time
average untouched. -/
theorem parseBlockGo_system_untouched (lines : List String) :
    ∀ out avg cnt found,
      (∀ l ∈ lines, hasSubstr l.data systemLabel = false) →
      (parseBlockGo lines out avg cnt found).avg.system_time = avg.system_time := by
  induction lines with
  | nil => intro out avg cnt found _; rfl
  | cons l ls ih =>
    intro out avg cnt found h
    have hl : hasSubstr l.data systemLabel = false := h l (by simp)
    have ht : ∀ x ∈ ls, hasSubstr x.data systemLabel = false := fun x hx => h x (by simp [hx])
    simp only [parseBlockGo, String.toList]
    simp only [hl]
    repeat' split
    all_goals first
      | rfl
      | contradiction
      | exact ih _ _ _ _ ht

/-- A block with no CPU label line leaves the CPU-usage average
untouched. -/
theorem parseBlockGo_cpu_untouched (lines : List String) :
    ∀ out avg cnt found,
      (∀ l ∈ lines, hasSubstr l.data cpuLabel = false) →
      (parseBlockGo lines out avg cnt found).avg.cpu_usage = avg.cpu_usage := by
  induction lines with
  | nil => intro out avg cnt found _; rfl
  | cons l ls ih =>
    intro out avg cnt found h
    have hl : hasSubstr l.data cpuLabel = false := h l (by simp)
    have ht : ∀ x ∈ ls, hasSubstr x.data cpuLabel = false := fun x hx => h x (by simp [hx])
    simp only [parseBlockGo, String.toList]
    simp only [hl]
    repeat' split
    all_goals first
      | rfl
      | contradiction
      | exact ih _ _ _ _ ht

/-- A block with no RSS label line leaves the max-RSS average
untouched. -/
theorem parseBlockGo_rss_untouched (lines : List String) :
    ∀ out avg cnt found,
      (∀ l ∈ lines, hasSubstr l.data rssLabel = false) →
      (parseBlockGo lines out avg cnt found).avg.max_rss = avg.max_rss := by
  induction lines with
  | nil => intro out avg cnt found _; rfl
  | cons l ls ih =>
    intro out avg cnt found h
    have hl : hasSubstr l.data rssLabel = false := h l (by simp)
    have ht : ∀ x ∈ ls, hasSubstr x.data rssLabel = false := fun x hx => h x (by simp [hx])
    simp only [parseBlockGo, String.toList]
    simp only [hl]
    repeat' split
    all_goals first
      | rfl
      | contradiction
      | exact ih _ _ _ _ ht

/-- C2 (amended theorem): when the number of label lines found differs
from five the block is not well-formed, so no CSV row is appended; and
a field whose label appears on no line of the block keeps its running
average unchanged.  (The fields that DO appear are merged even when the
block is discarded — that is the counterexample to the original
claim.) -/
theorem c2_discard_policy_amended (lines : List String) (avg : Metrics) (cnt : ℤ)
    (h5 : recognizedCount lines ≠ 5) :
    (parse_metrics_block lines avg cnt).ok = false
  ∧ ((∀ l ∈ lines, hasSubstr l.data wallLabel = false) →
      (parse_metrics_block lines avg cnt).avg.wall_clock = avg.wall_clock)
  ∧ ((∀ l ∈ lines, hasSubstr l.data userLabel = false) →
      (parse_metrics_block lines avg cnt).avg.user_time = avg.user_time)
  ∧ ((∀ l ∈ lines, hasSubstr l.data systemLabel = false) →
      (parse_metrics_block lines avg cnt).avg.system_time = avg.system_time)
  ∧ ((∀ l ∈ lines, hasSubstr l.data cpuLabel = false) →
      (parse_metrics_block lines avg cnt).avg.cpu_usage = avg.cpu_usage)
  ∧ ((∀ l ∈ lines, hasSubstr l.data rssLabel = false) →
      (parse_metrics_block lines avg cnt).avg.max_rss = avg.max_rss) := by
  refine ⟨?_, ?_, ?_, ?_, ?_, ?_⟩
  · show (parseBlockGo lines zeroMetrics avg cnt 0).ok = false
    rw [parseBlockGo_ok_count]
    simpa using h5
  · exact parseBlockGo_wall_untouched lines zeroMetrics avg cnt 0
  · exact parseBlockGo_user_untouched lines zeroMetrics avg cnt 0
  · exact parseBlockGo_system_untouched lines zeroMetrics avg cnt 0
  · exact parseBlockGo_cpu_untouched lines zeroMetrics avg cnt 0
  · exact parseBlockGo_rss_untouched lines zeroMetrics avg cnt 0

/-- Witness for the amended C2 at a concrete input: a one-line block
with no labels at all is rejected and leaves every average field of an
arbitrary concrete accumulator unchanged. -/
theorem c2_discard_policy_amended_witness :
    recognizedCount ["hello"] ≠ 5
  ∧ (parse_metrics_block ["hello"] ⟨1, 2, 3, 4, 5⟩ 7).ok = false
  ∧ (parse_metrics_block ["hello"] ⟨1, 2, 3, 4, 5⟩ 7).avg.wall_clock = 4
  ∧ (parse_metrics_block ["hello"] ⟨1, 2, 3, 4, 5⟩ 7).avg.max_rss = 5 := by
  have h := c2_discard_policy_amended ["hello"] ⟨1, 2, 3, 4, 5⟩ 7 (by decide)
  exact ⟨by decide, h.1, h.2.1 (by decide), h.2.2.2.2.2 (by decide)⟩

/-- The accumulator invariant behind the amended C1: feeding samples
whose k-th merge is performed with previous-count k (as `main` does
when the phase contributes exactly one sample in every iteration so
far) computes `(k·a + sum) / (k + n)`. -/
theorem runAverage_mean (vs : List ℚ) :
    ∀ (k : ℕ) (a : ℚ), 0 < k + vs.length →
      runAverage a (k : ℤ) vs = ((k : ℚ) * a + vs.sum) / ((k : ℚ) + vs.length) := by
  induction vs with
  | nil =>
    intro k a hk
    have hk1 : 0 < k := by simpa using hk
    have hk0 : (k : ℚ) ≠ 0 := Nat.cast_ne_zero.mpr (by omega)
    simp only [runAverage, List.sum_nil, List.length_nil, Nat.cast_zero, add_zero]
    exact (mul_div_cancel_left₀ a hk0).symm
  | cons v vs ih =>
    intro k a hk
    have hstep : runAverage a (k : ℤ) (v :: vs)
        = runAverage (calculate_new_average a (k : ℤ) v) (((k + 1 : ℕ) : ℤ)) vs := by
      simp only [runAverage]
      norm_cast
    rw [hstep, ih (k + 1) _ (by omega)]
    rcases Nat.eq_zero_or_pos k with hk0 | hkpos
    · subst hk0
      simp only [calculate_new_average, Nat.cast_zero, Int.cast_zero, if_pos rfl,
        List.sum_cons, List.length_cons]
      push_cast
      ring_nf
    · have hkne : ((k : ℕ) : ℤ) ≠ 0 := by omega
      have hQ : (k : ℚ) ≠ 0 := Nat.cast_ne_zero.mpr (by omega)
      have hQ1 : (k : ℚ) + 1 ≠ 0 := by positivity
      have hQl : (k : ℚ) + 1 + (vs.length : ℚ) ≠ 0 := by positivity
      simp only [calculate_new_average, if_neg hkne, List.sum_cons, List.length_cons]
      push_cast
      field_simp
      ring

/-- C1 (amended theorem): the phase average equals the arithmetic mean
of the merged samples exactly in the aligned regime the code realises
when no iteration fails and the phase appears in each report: the k-th
merged sample arrives with global iteration count k.  Under that
regime the result is `sum / count`, hence independent of feed order
(permutation-invariant).  When iterations fail or the phase is absent
the global count outruns the sample count and the invariant breaks
(see the counterexample). -/
theorem c1_accumulator_mean_of_aligned_counts (vs ws : List ℚ) (h : vs ≠ [])
    (hperm : vs.Perm ws) :
    runAverage 0 0 vs = vs.sum / vs.length
  ∧ runAverage 0 0 vs = runAverage 0 0 ws := by
  have key : ∀ us : List ℚ, us ≠ [] → runAverage 0 0 us = us.sum / us.length := by
    intro us hus
    have hlen : 0 < us.length := List.length_pos.mpr hus
    have hm := runAverage_mean us 0 0 (by simpa using hlen)
    simpa using hm
  have h1 := key vs h
  have h2 := key ws (by
    intro hw
    apply h
    have hl := hperm.length_eq
    rw [hw] at hl
    simpa using List.length_eq_zero.mp (by simpa using hl))
  refine ⟨h1, ?_⟩
  rw [h1, h2, hperm.sum_eq, hperm.length_eq]

/-- Witness for the amended C1: samples 10 and 20 average to 15, in
either feed order. -/
theorem c1_accumulator_mean_witness :
    runAverage 0 0 [(10 : ℚ), 20] = [(10 : ℚ), 20].sum / [(10 : ℚ), 20].length
  ∧ runAverage 0 0 [(10 : ℚ), 20] = runAverage 0 0 [(20 : ℚ), 10] :=
  c1_accumulator_mean_of_aligned_counts [10, 20] [20, 10] (by simp)
    (List.Perm.swap 20 10 [])

unseal Rat.mul Rat.inv Rat.add Rat.sub Rat.ofScientific in
/-- C4: merging the N-th sample value v (the call sites pass
`current_count - 1 = N - 1` to `calculate_new_average`) yields v when
N = 1 and `((N-1)·old + v)/N` when N > 1; and the full pipeline run of
two iterations with wall clocks 10 ms then 20 ms ends with an average
wall clock of 15 ms. -/
theorem c4_nth_sample_update_rule (old v : ℚ) (old2 r : ℤ) (N : ℤ) (h : 1 ≤ N) :
    (N = 1 → calculate_new_average old (N - 1) v = v)
  ∧ (1 < N → calculate_new_average old (N - 1) v = ((N - 1) * old + v) / N)
  ∧ rss_update old2 1 r = r
  ∧ rss_update old2 N r = Int.tdiv ((N - 1) * old2 + r) N
  ∧ ((benchMain ["./benchmark", "2", "0"] wall10Then20).avgs Phase.inference).wall_clock
      = 15 := by
  refine ⟨?_, ?_, ?_, rfl, by decide⟩
  · intro h1
    subst h1
    simp [calculate_new_average]
  · intro h1
    have hne : N - 1 ≠ 0 := by omega
    simp only [calculate_new_average, if_neg hne]
    push_cast
    ring_nf
  · simp [rss_update]

/-- Witness for C4 at N = 2, old = 10, v = 20 (and RSS state 5 merged
with sample 7): the merge yields 15, and so does the two-iteration
pipeline. -/
theorem c4_nth_sample_update_rule_witness :
    calculate_new_average 10 (2 - 1) 20 = (((2 : ℤ) - 1) * 10 + 20) / 2
  ∧ rss_update 5 1 7 = 7
  ∧ ((benchMain ["./benchmark", "2", "0"] wall10Then20).avgs Phase.inference).wall_clock
      = 15 :=
  ⟨(c4_nth_sample_update_rule 10 20 5 7 2 (by norm_num)).2.1 (by norm_num),
   (c4_nth_sample_update_rule 10 20 5 7 2 (by norm_num)).2.2.1,
   (c4_nth_sample_update_rule 10 20 5 7 2 (by norm_num)).2.2.2.2⟩

/-- C6 (amended theorem): the max-RSS running mean is updated with
integer arithmetic truncating toward zero — for count N the stored
value is the integer quotient `tdiv ((N-1)·old + r) N`, which for a
non-negative numerator lies within one unit below the exact quotient
(never rounded up) — while the four float fields are updated by exact
(modelled) floating-point arithmetic `((N-1)·old + v)/N`.  Each
integer step therefore truncates by less than one unit, but — contrary
to the original claim's final clause — the truncating rule need NOT
converge to the simple mean of the observed values (see the
counterexample). -/
theorem c6_rss_truncating_mean (old r N : ℤ) (fOld v : ℚ) (hN : 1 < N) :
    rss_update old N r = Int.tdiv ((N - 1) * old + r) N
  ∧ calculate_new_average fOld (N - 1) v = ((N - 1) * fOld + v) / N
  ∧ (0 ≤ (N - 1) * old + r →
      N * rss_update old N r ≤ (N - 1) * old + r
    ∧ (N - 1) * old + r < N * rss_update old N r + N) := by
  refine ⟨rfl, ?_, ?_⟩
  · have hne : N - 1 ≠ 0 := by omega
    simp only [calculate_new_average, if_neg hne]
    push_cast
    ring_nf
  · intro hnum
    unfold rss_update
    rw [Int.tdiv_eq_ediv hnum (by omega)]
    have he1 := Int.ediv_add_emod ((N - 1) * old + r) N
    have he2 := Int.emod_nonneg ((N - 1) * old + r) (show N ≠ 0 by omega)
    have he3 := Int.emod_lt_of_pos ((N - 1) * old + r) (show 0 < N by omega)
    omega

/-- Witness for C6 at N = 3, old = 5, r = 7 (numerator 17, stored
value 5 = 17 tdiv 3) and at N = 2, old = 0, r = 3 (exact mean 1.5
stored as 1: truncated, not rounded). -/
theorem c6_rss_truncating_mean_witness :
    rss_update 5 3 7 = Int.tdiv ((3 - 1) * 5 + 7) 3
  ∧ rss_update 5 3 7 = 5
  ∧ (3 * rss_update 5 3 7 ≤ (3 - 1) * 5 + 7 ∧ (3 - 1) * 5 + 7 < 3 * rss_update 5 3 7 + 3)
  ∧ rss_update 0 2 3 = 1 := by
  have h := c6_rss_truncating_mean 5 7 3 1 2 (by norm_num)
  exact ⟨h.1, by decide, h.2.2 (by norm_num), by decide⟩

unseal Rat.mul Rat.inv Rat.add Rat.sub in
/-- C6 (counterexample to the convergence clause): with aligned counts
and alternating samples 1, 0, 1, 0, … the truncating integer rule
stores 0 after both 10 and 20 samples, while the simple mean of the
observed values is 1/2 in both cases — the gap does not shrink as more
samples arrive, so the integer update rule does not converge to the
simple mean of observed values. -/
theorem c6_int_mean_not_convergent_counterexample :
    runRssAverage 0 1 rssAlt10 = 0
  ∧ (rssAlt10.sum : ℚ) / rssAlt10.length = 1 / 2
  ∧ runRssAverage 0 1 rssAlt20 = 0
  ∧ (rssAlt20.sum : ℚ) / rssAlt20.length = 1 / 2
  ∧ (0 : ℚ) ≠ 1 / 2 := by
  refine ⟨rfl, ?_, rfl, ?_, ?_⟩ <;> decide

/-- A string with no digit after the optional whitespace and sign is
what C calls non-numeric: `atol` returns 0 on it. -/
theorem atol_eq_zero_of_no_leading_digit (l : List Char)
    (h : hasLeadingDigit l = false) : atol l = 0 := by
  unfold hasLeadingDigit at h
  have hmag : digitsVal ((afterSign (l.dropWhile isWs)).takeWhile Char.isDigit) = 0 := by
    rcases hd : afterSign (l.dropWhile isWs) with _ | ⟨c, cs⟩
    · simp [digitsVal]
    · rw [hd] at h
      simp only [] at h
      simp [List.takeWhile_cons, h, digitsVal]
  simp only [atol, hmag]
  split
  · simp
  · simp

/-- C7: whenever the iteration-count argument is missing (fewer than
three argv entries), non-numeric (no leading digit, so `atoi` yields
0), or parses to a non-positive value, the program exits with code 1
before creating any directory, opening any CSV sink or attempting any
iteration, and a diagnostic is emitted on standard error. -/
theorem c7_bad_iterations_argument_fatal (argv : List String) (oracle : ℕ → IterOutcome)
    (h : argv.length < 3 ∨ hasLeadingDigit (argv.getD 1 "").toList = false
       ∨ atol (argv.getD 1 "").toList ≤ 0) :
    (benchMain argv oracle).exitCode = 1
  ∧ (benchMain argv oracle).mkdirCalls = 0
  ∧ (benchMain argv oracle).csvOpened = false
  ∧ (benchMain argv oracle).itersAttempted = 0
  ∧ (benchMain argv oracle).rows = []
  ∧ (benchMain argv oracle).stderrMsgs ≠ [] := by
  have hfail : ∃ e, check_args argv = .error e := by
    unfold check_args
    by_cases hlen : argv.length = 3
    · have hle : atol (argv.getD 1 "").toList ≤ 0 := by
        rcases h with h | h | h
        · omega
        · rw [atol_eq_zero_of_no_leading_digit _ h]
        · exact h
      exact ⟨_, by rw [if_neg (by omega), if_pos hle]⟩
    · exact ⟨_, by rw [if_pos hlen]⟩
  obtain ⟨e, he⟩ := hfail
  simp [benchMain, he]

/-- Witness for C7: the non-numeric argument `abc` aborts the run with
exit code 1 and no directories, sinks, iterations or rows. -/
theorem c7_bad_iterations_argument_fatal_witness :
    (benchMain ["./benchmark", "abc", "0"] (fun _ => .cmdFail)).exitCode = 1
  ∧ (benchMain ["./benchmark", "abc", "0"] (fun _ => .cmdFail)).mkdirCalls = 0
  ∧ (benchMain ["./benchmark", "abc", "0"] (fun _ => .cmdFail)).itersAttempted = 0
  ∧ (benchMain ["./benchmark", "abc", "0"] (fun _ => .cmdFail)).rows = [] := by
  have h := c7_bad_iterations_argument_fatal ["./benchmark", "abc", "0"]
    (fun _ => .cmdFail) (Or.inr (Or.inl (by decide)))
  exact ⟨h.1, h.2.1, h.2.2.2.1, h.2.2.2.2.1⟩

/-- Every CSV row a run of the iteration loop produces is tagged with
the number of an iteration whose outcome was scratch-file content (a
successful external command). -/
theorem runIterations_rows_mem (outs : List IterOutcome) :
    ∀ (start : ℕ) (avgs : Phase → Metrics),
      ∀ r ∈ (runIterations outs start avgs).2.1,
        ∃ j ls, j < outs.length ∧ outs[j]? = some (.content ls) ∧ r.1 = start + j + 1 := by
  induction outs with
  | nil => intro start avgs r hr; simp [runIterations] at hr
  | cons o os ih =>
    intro start avgs r hr
    cases o with
    | cmdFail =>
      simp only [runIterations] at hr
      obtain ⟨j, ls, hj, hget, htag⟩ := ih (start + 1) avgs r hr
      exact ⟨j + 1, ls, by simpa using Nat.succ_lt_succ hj, by simpa using hget,
        by omega⟩
    | noFile =>
      simp only [runIterations] at hr
      obtain ⟨j, ls, hj, hget, htag⟩ := ih (start + 1) avgs r hr
      exact ⟨j + 1, ls, by simpa using Nat.succ_lt_succ hj, by simpa using hget,
        by omega⟩
    | content ls0 =>
      simp only [runIterations] at hr
      rcases List.mem_append.mp hr with hr | hr
      · obtain ⟨pm, hpm, hep⟩ := List.mem_map.mp hr
        refine ⟨0, ls0, by simp, by simp, ?_⟩
        rw [← hep]
      · obtain ⟨j, ls, hj, hget, htag⟩ := ih (start + 1) _ r hr
        exact ⟨j + 1, ls, by simpa using Nat.succ_lt_succ hj, by simpa using hget,
          by omega⟩

/-- C8: if the external command exits non-zero on some iteration `i`
of a K-iteration run, that iteration contributes no CSV row for any
phase, the loop still attempts all K iterations, the program exits
with code 0, and every row that exists is tagged with an in-range
iteration whose command succeeded and produced scratch content. -/
theorem c8_failed_iteration_skipped (s flag : String) (oracle : ℕ → IterOutcome) (i : ℕ)
    (hpos : 0 < atol s.toList) (hfail : oracle i = .cmdFail) :
    (benchMain ["./benchmark", s, flag] oracle).exitCode = 0
  ∧ (benchMain ["./benchmark", s, flag] oracle).itersAttempted = (atol s.toList).toNat
  ∧ ∀ r ∈ (benchMain ["./benchmark", s, flag] oracle).rows,
      (1 ≤ r.1 ∧ r.1 ≤ (atol s.toList).toNat)
    ∧ (∃ ls, oracle r.1 = .content ls)
    ∧ r.1 ≠ i := by
  have hargs : check_args ["./benchmark", s, flag] = .ok (atol s.toList) := by
    unfold check_args
    rw [if_neg (by simp), if_neg (by simpa using hpos)]
    rfl
  refine ⟨by simp [benchMain, hargs], by simp [benchMain, hargs], ?_⟩
  intro r hr
  have hr2 : r ∈ (runIterations
      ((List.range (atol s.toList).toNat).map fun k => oracle (k + 1)) 0
      (fun _ => zeroMetrics)).2.1 := by
    simpa [benchMain, hargs] using hr
  obtain ⟨j, ls, hj, hget, htag⟩ := runIterations_rows_mem _ 0 _ r hr2
  have hjn : j < (atol s.toList).toNat := by simpa using hj
  rw [List.getElem?_map, List.getElem?_range hjn] at hget
  have hor : oracle (j + 1) = .content ls := by simpa using hget
  have hr1 : r.1 = j + 1 := by omega
  refine ⟨⟨by omega, by omega⟩, ⟨ls, by rw [hr1]; exact hor⟩, ?_⟩
  intro hri
  have hco : oracle i = .content ls := by rw [← hri, hr1]; exact hor
  rw [hfail] at hco
  exact IterOutcome.noConfusion hco

/-- Witness for C8: two iterations whose commands both fail — the run
exits 0, attempts both iterations and produces no rows. -/
theorem c8_failed_iteration_skipped_witness :
    (benchMain ["./benchmark", "2", "0"] (fun _ => .cmdFail)).exitCode = 0
  ∧ (benchMain ["./benchmark", "2", "0"] (fun _ => .cmdFail)).itersAttempted = 2
  ∧ (benchMain ["./benchmark", "2", "0"] (fun _ => .cmdFail)).rows = [] := by
  have h := c8_failed_iteration_skipped "2" "0" (fun _ => .cmdFail) 1 (by decide) rfl
  exact ⟨h.1, by simpa using h.2.1, by decide⟩

end Benchmark
